import Mathlib

/-!
Verification of the Dimension-Detector measurement pipeline: a shallow
embedding of `src/measure_dimensions.py` (`calculate_dimensions`).

The image-processing front end (decode, grayscale, blur, Canny, morphology,
`cv2.findContours`) is the Silhouette Extractor collaborator; its output is a
list of contours.  Each contour is modelled by the two quantities the core
logic reads from it: its enclosed area (`cv2.contourArea`) and the two side
lengths of its minimum-area oriented box (`cv2.minAreaRect(...)[1]`).  Python
floats are modelled as exact rationals, so the literals `1.5`, `1.7`, `1.1`
are the exact rationals 3/2, 17/10, 11/10.
-/

namespace DimensionDetector

/-- A contour as seen by the core logic: its enclosed area and the two pixel
side lengths `(w, h)` of its fitted minimum-area oriented box. -/
structure Contour where
  area : ℚ
  boxW : ℚ
  boxH : ℚ
deriving DecidableEq, Repr

/-- The short side of the fitted oriented box: `pixel_width = min(w, h)`. -/
def shortSide (c : Contour) : ℚ := min c.boxW c.boxH

/-- The long side of the fitted oriented box: `pixel_height = max(w, h)`. -/
def longSide (c : Contour) : ℚ := max c.boxW c.boxH

/-- The fitted box's `aspect_ratio = pixel_height / pixel_width`. -/
def aspectRatio (c : Contour) : ℚ := longSide c / shortSide c

/-- The reference-matching predicate of the scan loop: the short side is
nonzero (otherwise the Python division raises `ZeroDivisionError` and the
contour is skipped) and the aspect ratio lies strictly inside `(1.5, 1.7)`. -/
def inBand (c : Contour) : Prop :=
  shortSide c ≠ 0 ∧ 1.5 < aspectRatio c ∧ aspectRatio c < 1.7

instance : DecidablePred inBand := fun c => by
  unfold inBand; infer_instance

/-- The terminal failures of a run (each an early `return` after an error
message in the source).  `indexFault` models a Python `IndexError` from
`contours[0]` / `contours[1]`; the code never raises it (claim C10). -/
inductive MeasureError where
  | insufficientContours
  | referenceNotFound
  | indexFault
deriving DecidableEq, Repr

/-- The successful output of the core pipeline: the two physical dimensions
(sorted ascending) plus the identities of the reference and target contours,
from which the rendered corner points are derived. -/
structure MeasurementResult where
  dim1 : ℚ
  dim2 : ℚ
  refContour : Contour
  targetContour : Contour
deriving DecidableEq, Repr

/-- The ordering used by `sorted(contours, key=cv2.contourArea, reverse=True)`:
`a` precedes `b` when `a`'s area is at least `b`'s. -/
def byAreaDesc (a b : Contour) : Prop := b.area ≤ a.area

instance : DecidableRel byAreaDesc := fun a b =>
  inferInstanceAs (Decidable (b.area ≤ a.area))

instance : IsTotal Contour byAreaDesc :=
  ⟨fun a b => le_total b.area a.area⟩

instance : IsTrans Contour byAreaDesc :=
  ⟨fun _ _ _ hab hbc => le_trans hbc hab⟩

/-- The sort `contours = sorted(contours, key=cv2.contourArea, reverse=True)`:
a stable sort by enclosed area, largest first. -/
def sortByAreaDesc (cs : List Contour) : List Contour :=
  cs.insertionSort byAreaDesc

/-- The reference-identification loop (source lines 48–65): scan the sorted
contours; a contour whose short side is zero raises `ZeroDivisionError` in the
aspect-ratio division and is skipped by `continue`; the first contour whose
aspect ratio lies strictly in `(1.5, 1.7)` is taken as the reference, with
`pixels_per_cm = pixel_width / ref_object_width_cm`, and the loop breaks. -/
def findReference (ref_width : ℚ) : List Contour → Option (Contour × ℚ)
  | [] => none
  | c :: rest =>
    if shortSide c = 0 then findReference ref_width rest
    else if 1.5 < aspectRatio c ∧ aspectRatio c < 1.7 then
      some (c, shortSide c / ref_width)
    else findReference ref_width rest

/-- The core of `calculate_dimensions`, from the point where the Silhouette
Extractor has produced the contour list: require at least two contours, sort
by area descending, find the reference and the scale, pick the target (the
largest contour, falling back to the second largest when the largest is less
than 1.1× the reference's area), divide the target's oriented-box sides by the
scale and sort the two lengths ascending. -/
def calculate_dimensions (contoursIn : List Contour) (ref_width : ℚ) :
    Except MeasureError MeasurementResult :=
  if contoursIn.length < 2 then .error .insufficientContours
  else
    let contours := sortByAreaDesc contoursIn
    match findReference ref_width contours with
    | none => .error .referenceNotFound
    | some (refC, pixels_per_cm) =>
      match contours[0]? with
      | none => .error .indexFault
      | some c0 =>
        match (if c0.area < refC.area * 1.1 then contours[1]? else some c0) with
        | none => .error .indexFault
        | some target =>
          let target_width_cm := target.boxW / pixels_per_cm
          let target_height_cm := target.boxH / pixels_per_cm
          .ok { dim1 := min target_width_cm target_height_cm
                dim2 := max target_width_cm target_height_cm
                refContour := refC
                targetContour := target }

/-! Helper lemmas about the embedded operations, shared by the claim
theorems below. -/

/-- A contour whose fitted box has a zero-length side is not in band. -/
theorem not_inBand_of_shortSide_eq_zero {c : Contour} (hz : shortSide c = 0) :
    ¬ inBand c := fun hband => hband.1 hz

/-- Anatomy of a successful reference scan: the returned contour is in band,
the returned scale is its short side over the declared reference width, and
every contour scanned before it is out of band. -/
theorem findReference_eq_some {w : ℚ} :
    ∀ {cs : List Contour} {c : Contour} {s : ℚ},
      findReference w cs = some (c, s) →
      inBand c ∧ s = shortSide c / w ∧
      ∃ pre post, cs = pre ++ c :: post ∧ ∀ x ∈ pre, ¬ inBand x := by
  intro cs
  induction cs with
  | nil => intro c s h; simp [findReference] at h
  | cons a rest ih =>
    intro c s h
    rw [findReference] at h
    by_cases hz : shortSide a = 0
    · rw [if_pos hz] at h
      obtain ⟨hband, hs, pre, post, heq, hpre⟩ := ih h
      refine ⟨hband, hs, a :: pre, post, by rw [List.cons_append, heq], ?_⟩
      intro x hx
      rcases List.mem_cons.mp hx with hxa | hxpre
      · exact hxa ▸ not_inBand_of_shortSide_eq_zero hz
      · exact hpre x hxpre
    · rw [if_neg hz] at h
      by_cases hcond : 1.5 < aspectRatio a ∧ aspectRatio a < 1.7
      · rw [if_pos hcond] at h
        obtain ⟨hc, hs⟩ := Prod.mk.injEq .. ▸ Option.some.injEq .. ▸ h
        subst hc
        exact ⟨⟨hz, hcond⟩, hs.symm, [], rest, rfl, by simp⟩
      · rw [if_neg hcond] at h
        obtain ⟨hband, hs, pre, post, heq, hpre⟩ := ih h
        refine ⟨hband, hs, a :: pre, post, by rw [List.cons_append, heq], ?_⟩
        intro x hx
        rcases List.mem_cons.mp hx with hxa | hxpre
        · exact hxa ▸ fun hb => hcond hb.2
        · exact hpre x hxpre

/-- If no contour is in band, the reference scan returns nothing. -/
theorem findReference_eq_none {w : ℚ} :
    ∀ {cs : List Contour}, (∀ x ∈ cs, ¬ inBand x) → findReference w cs = none := by
  intro cs
  induction cs with
  | nil => intro _; rfl
  | cons a rest ih =>
    intro hall
    rw [findReference]
    by_cases hz : shortSide a = 0
    · rw [if_pos hz]
      exact ih fun x hx => hall x (List.mem_cons_of_mem a hx)
    · rw [if_neg hz]
      have hcond : ¬ (1.5 < aspectRatio a ∧ aspectRatio a < 1.7) :=
        fun hc => hall a (List.mem_cons_self a rest) ⟨hz, hc⟩
      rw [if_neg hcond]
      exact ih fun x hx => hall x (List.mem_cons_of_mem a hx)

/-- Sorting preserves the multiset of contours. -/
theorem sortByAreaDesc_perm (cs : List Contour) :
    List.Perm (sortByAreaDesc cs) cs :=
  List.perm_insertionSort byAreaDesc cs

/-- Sorting preserves the number of contours. -/
theorem sortByAreaDesc_length (cs : List Contour) :
    (sortByAreaDesc cs).length = cs.length :=
  (sortByAreaDesc_perm cs).length_eq

/-- Sorting preserves membership. -/
theorem mem_sortByAreaDesc {cs : List Contour} {c : Contour} :
    c ∈ sortByAreaDesc cs ↔ c ∈ cs :=
  (sortByAreaDesc_perm cs).mem_iff

/-- The sorted contour list is in area-descending order. -/
theorem sortByAreaDesc_sorted (cs : List Contour) :
    List.Sorted byAreaDesc (sortByAreaDesc cs) :=
  List.sorted_insertionSort byAreaDesc cs

/-- A list of at least two contours sorts to a list with at least two
contours. -/
theorem sortByAreaDesc_two_le {cs : List Contour} (h : 2 ≤ cs.length) :
    ∃ c0 c1 rest, sortByAreaDesc cs = c0 :: c1 :: rest := by
  have hlen : 2 ≤ (sortByAreaDesc cs).length := by
    rw [sortByAreaDesc_length]; exact h
  match hs : sortByAreaDesc cs with
  | [] => rw [hs] at hlen; simp at hlen
  | [c0] => rw [hs] at hlen; simp at hlen
  | c0 :: c1 :: rest => exact ⟨c0, c1, rest, rfl⟩

/-- Anatomy of a successful run: there were at least two contours, the sorted
list starts with the two largest, the reference scan succeeded with the
recorded reference contour and some scale, the target is the largest contour
unless the 1.1× area guard fired (then it is the second largest), and the two
dimensions are the target's box sides over the scale, sorted ascending. -/
theorem calculate_dimensions_ok {cs : List Contour} {w : ℚ} {r : MeasurementResult}
    (h : calculate_dimensions cs w = .ok r) :
    2 ≤ cs.length ∧
    ∃ s c0 c1 rest,
      sortByAreaDesc cs = c0 :: c1 :: rest ∧
      findReference w (sortByAreaDesc cs) = some (r.refContour, s) ∧
      ((c0.area < r.refContour.area * 1.1 ∧ r.targetContour = c1) ∨
       (¬ c0.area < r.refContour.area * 1.1 ∧ r.targetContour = c0)) ∧
      r.dim1 = min (r.targetContour.boxW / s) (r.targetContour.boxH / s) ∧
      r.dim2 = max (r.targetContour.boxW / s) (r.targetContour.boxH / s) := by
  by_cases hlen : cs.length < 2
  · rw [calculate_dimensions, if_pos hlen] at h
    exact absurd h (by simp)
  · have hlen2 : 2 ≤ cs.length := by omega
    obtain ⟨c0, c1, rest, hs⟩ := sortByAreaDesc_two_le hlen2
    rw [calculate_dimensions, if_neg hlen] at h
    simp only [hs, List.getElem?_cons_zero, List.getElem?_cons_succ] at h
    refine ⟨hlen2, ?_⟩
    split at h
    · exact absurd h (by simp)
    · rename_i refC s heq
      split at h
      · rename_i heq2
        exact absurd heq2 (by split <;> simp)
      · rename_i target heq2
        injection h with h'
        subst h'
        by_cases harea : c0.area < refC.area * 1.1
        · rw [if_pos harea] at heq2
          injection heq2 with h2
          subst h2
          exact ⟨s, c0, c1, rest, hs, by rw [hs]; exact heq, Or.inl ⟨harea, rfl⟩, rfl, rfl⟩
        · rw [if_neg harea] at heq2
          injection heq2 with h2
          subst h2
          exact ⟨s, c0, c1, rest, hs, by rw [hs]; exact heq, Or.inr ⟨harea, rfl⟩, rfl, rfl⟩

/-! Claim theorems. -/

/-- C1: the Reference Calibrator selects the first Boundary, in
enclosed-area-descending order, whose fitted OrientedBox has aspect ratio
strictly between 1.5 and 1.7, exclusive on both ends: the sorted list it
scans is in area-descending order, the selected boundary's ratio is in the
open band (hence never exactly 1.5 or exactly 1.7), and every boundary that
precedes it in the area order is outside the band (none is skipped). -/
theorem C1_reference_first_in_band (w : ℚ) (cs : List Contour) (c : Contour)
    (s : ℚ) (h : findReference w (sortByAreaDesc cs) = some (c, s)) :
    List.Sorted byAreaDesc (sortByAreaDesc cs) ∧
    inBand c ∧ aspectRatio c ≠ 1.5 ∧ aspectRatio c ≠ 1.7 ∧
    ∃ pre post, sortByAreaDesc cs = pre ++ c :: post ∧ ∀ x ∈ pre, ¬ inBand x := by
  obtain ⟨hband, -, pre, post, heq, hpre⟩ := findReference_eq_some h
  exact ⟨sortByAreaDesc_sorted cs, hband, hband.2.1.ne', ne_of_lt hband.2.2,
    pre, post, heq, hpre⟩

/-- Witness for C1 at a concrete run: the larger contour has ratio 2 and is
passed over; the smaller one has ratio 1.6 and is selected. -/
theorem C1_reference_first_in_band_witness :
    List.Sorted byAreaDesc (sortByAreaDesc [⟨10, 10, 20⟩, ⟨5, 10, 16⟩]) ∧
    inBand ⟨5, 10, 16⟩ ∧
    aspectRatio ⟨5, 10, 16⟩ ≠ 1.5 ∧ aspectRatio ⟨5, 10, 16⟩ ≠ 1.7 ∧
    ∃ pre post,
      sortByAreaDesc [⟨10, 10, 20⟩, ⟨5, 10, 16⟩] = pre ++ ⟨5, 10, 16⟩ :: post ∧
      ∀ x ∈ pre, ¬ inBand x :=
  C1_reference_first_in_band 5 [⟨10, 10, 20⟩, ⟨5, 10, 16⟩] ⟨5, 10, 16⟩ 2 (by
    norm_num [findReference, sortByAreaDesc, List.insertionSort,
      List.orderedInsert, byAreaDesc, aspectRatio, shortSide, longSide,
      min_def, max_def])

/-- C2: on every successful run the candidate target is the largest-area
boundary of the sorted list; if its area is strictly below 1.1× the reference
boundary's area the selected target is the second-largest boundary, and
otherwise it is the largest one. -/
theorem C2_target_largest_with_fallback (cs : List Contour) (w : ℚ)
    (r : MeasurementResult) (h : calculate_dimensions cs w = .ok r) :
    ∃ c0 c1 rest, sortByAreaDesc cs = c0 :: c1 :: rest ∧
      (c0.area < r.refContour.area * 1.1 → r.targetContour = c1) ∧
      (¬ c0.area < r.refContour.area * 1.1 → r.targetContour = c0) := by
  obtain ⟨-, s, c0, c1, rest, hs, -, hsel, -, -⟩ := calculate_dimensions_ok h
  rcases hsel with ⟨ha, ht⟩ | ⟨ha, ht⟩
  · exact ⟨c0, c1, rest, hs, fun _ => ht, fun hn => absurd ha hn⟩
  · exact ⟨c0, c1, rest, hs, fun hy => absurd hy ha, fun _ => ht⟩

/-- Witness for C2 at a concrete run where the guard does not fire: the
largest contour (area 300) is at least 1.1× the reference's area (100), so it
is the selected target. -/
theorem C2_target_largest_with_fallback_witness :
    ∃ c0 c1 rest,
      sortByAreaDesc [⟨100, 10, 16⟩, ⟨300, 30, 60⟩] = c0 :: c1 :: rest ∧
      (c0.area <
          (MeasurementResult.mk 15 30 ⟨100, 10, 16⟩ ⟨300, 30, 60⟩).refContour.area * 1.1 →
        (MeasurementResult.mk 15 30 ⟨100, 10, 16⟩ ⟨300, 30, 60⟩).targetContour = c1) ∧
      (¬ c0.area <
          (MeasurementResult.mk 15 30 ⟨100, 10, 16⟩ ⟨300, 30, 60⟩).refContour.area * 1.1 →
        (MeasurementResult.mk 15 30 ⟨100, 10, 16⟩ ⟨300, 30, 60⟩).targetContour = c0) :=
  C2_target_largest_with_fallback [⟨100, 10, 16⟩, ⟨300, 30, 60⟩] 5
    ⟨15, 30, ⟨100, 10, 16⟩, ⟨300, 30, 60⟩⟩ (by
      norm_num [calculate_dimensions, sortByAreaDesc, List.insertionSort,
        List.orderedInsert, byAreaDesc, findReference, aspectRatio, shortSide,
        longSide, min_def, max_def])

/-- C3: end-to-end numeric example — with a reference of pixel short side 100
(box 100 × 158.6, so the ratio 1.586 is in band) and declared physical width
5.0, and a target of pixel box 300 × 150, the scale is 100 / 5 = 20 and the
result is the ascending pair (7.50, 15.00). -/
theorem C3_end_to_end_example :
    findReference 5 (sortByAreaDesc [⟨15860, 100, 158.6⟩, ⟨45000, 300, 150⟩]) =
      some (⟨15860, 100, 158.6⟩, 20) ∧
    calculate_dimensions [⟨15860, 100, 158.6⟩, ⟨45000, 300, 150⟩] 5 =
      .ok ⟨7.5, 15, ⟨15860, 100, 158.6⟩, ⟨45000, 300, 150⟩⟩ := by
  constructor <;>
    norm_num [calculate_dimensions, sortByAreaDesc, List.insertionSort,
      List.orderedInsert, byAreaDesc, findReference, aspectRatio, shortSide,
      longSide, min_def, max_def]

/-- C4: for every matched reference, the calibration scale equals the
reference box's short side (the minimum of the two fitted sides, never the
long side) divided by the known physical reference width. -/
theorem C4_scale_is_short_side_over_width (w : ℚ) (cs : List Contour)
    (c : Contour) (s : ℚ) (h : findReference w cs = some (c, s)) :
    s = min c.boxW c.boxH / w :=
  (findReference_eq_some h).2.1

/-- Witness for C4: a 10 × 16 reference box with declared width 5 yields
scale 2 = min 10 16 / 5. -/
theorem C4_scale_is_short_side_over_width_witness :
    (2 : ℚ) = min (Contour.mk 5 10 16).boxW (Contour.mk 5 10 16).boxH / 5 :=
  C4_scale_is_short_side_over_width 5 [⟨5, 10, 16⟩] ⟨5, 10, 16⟩ 2 (by
    norm_num [findReference, aspectRatio, shortSide, longSide, min_def, max_def])

/-- C5: on every successful run the two physical lengths are returned in
ascending order, whatever the order in which the oriented-box fit reports the
target's two pixel sides. -/
theorem C5_dimensions_ascending (cs : List Contour) (w : ℚ)
    (r : MeasurementResult) (h : calculate_dimensions cs w = .ok r) :
    r.dim1 ≤ r.dim2 := by
  obtain ⟨-, s, c0, c1, rest, -, -, -, h1, h2⟩ := calculate_dimensions_ok h
  rw [h1, h2]
  exact min_le_max

/-- Witness for C5 at a run whose target box is reported long side first
(60 × 30): the output is still ascending, (15, 30). -/
theorem C5_dimensions_ascending_witness :
    (MeasurementResult.mk 15 30 ⟨100, 10, 16⟩ ⟨300, 60, 30⟩).dim1 ≤
    (MeasurementResult.mk 15 30 ⟨100, 10, 16⟩ ⟨300, 60, 30⟩).dim2 :=
  C5_dimensions_ascending [⟨100, 10, 16⟩, ⟨300, 60, 30⟩] 5
    ⟨15, 30, ⟨100, 10, 16⟩, ⟨300, 60, 30⟩⟩ (by
      norm_num [calculate_dimensions, sortByAreaDesc, List.insertionSort,
        List.orderedInsert, byAreaDesc, findReference, aspectRatio, shortSide,
        longSide, min_def, max_def])

/-- C6: a boundary whose fitted box has a zero-length side is skipped (the
`ZeroDivisionError` of the aspect-ratio division is caught and the scan
continues with the next boundary) and is never the returned match: any
returned reference has a nonzero short side. -/
theorem C6_zero_side_skipped (w : ℚ) (c : Contour) (rest : List Contour)
    (hz : shortSide c = 0) :
    findReference w (c :: rest) = findReference w rest ∧
    ∀ c2 s, findReference w (c :: rest) = some (c2, s) → shortSide c2 ≠ 0 := by
  refine ⟨by rw [findReference, if_pos hz], fun c2 s h => ?_⟩
  exact (findReference_eq_some h).1.1

/-- Witness for C6: a degenerate 0 × 5 box at the head of the list is skipped
and the scan continues with the 10 × 16 contour behind it. -/
theorem C6_zero_side_skipped_witness :
    findReference 5 (⟨1, 0, 5⟩ :: [⟨2, 10, 16⟩]) = findReference 5 [⟨2, 10, 16⟩] ∧
    ∀ c2 s, findReference 5 (⟨1, 0, 5⟩ :: [⟨2, 10, 16⟩]) = some (c2, s) →
      shortSide c2 ≠ 0 :=
  C6_zero_side_skipped 5 ⟨1, 0, 5⟩ [⟨2, 10, 16⟩] (by
    norm_num [shortSide, min_def])

/-- C7: with fewer than two extracted boundaries the run fails immediately
with `InsufficientContoursError`; no reference scan, target selection or
dimension computation runs and no MeasurementResult is produced. -/
theorem C7_insufficient_contours (cs : List Contour) (w : ℚ)
    (h : cs.length < 2) :
    calculate_dimensions cs w = .error .insufficientContours := by
  rw [calculate_dimensions, if_pos h]

/-- Witness for C7: a single contour fails the run. -/
theorem C7_insufficient_contours_witness :
    calculate_dimensions [⟨1, 1, 1⟩] 5 = .error .insufficientContours :=
  C7_insufficient_contours [⟨1, 1, 1⟩] 5 (by simp)

/-- C8: when no boundary's aspect ratio lies in the open band (1.5, 1.7) the
run fails with `ReferenceNotFoundError` and produces no partial result. -/
theorem C8_reference_not_found (cs : List Contour) (w : ℚ)
    (h2 : 2 ≤ cs.length) (hno : ∀ x ∈ cs, ¬ inBand x) :
    calculate_dimensions cs w = .error .referenceNotFound := by
  have hfr : findReference w (sortByAreaDesc cs) = none :=
    findReference_eq_none fun x hx => hno x (mem_sortByAreaDesc.mp hx)
  rw [calculate_dimensions, if_neg (by omega)]
  simp only [hfr]

/-- Witness for C8: two contours with ratios 1 and 3, neither in band. -/
theorem C8_reference_not_found_witness :
    calculate_dimensions [⟨2, 1, 1⟩, ⟨1, 1, 3⟩] 5 = .error .referenceNotFound :=
  C8_reference_not_found [⟨2, 1, 1⟩, ⟨1, 1, 3⟩] 5 (by simp) (by
    norm_num [inBand, aspectRatio, shortSide, longSide, min_def, max_def])

/-- C9: the code does NOT fail when no candidate distinct from the reference
remains — there is no `TargetNotFoundError` anywhere in the source (the error
type of this embedding models every failure path the code has).  At the input
below the largest contour's area (5000) is under 1.1× the reference's area
(4800 · 1.1 = 5280), so the fallback picks `contours[1]`, which IS the
reference contour, and the run silently returns a MeasurementResult that
measures the reference itself. -/
theorem C9_reference_silently_reused_as_target :
    ∃ r, calculate_dimensions [⟨5000, 50, 100⟩, ⟨4800, 60, 95⟩] 5 = .ok r ∧
      r.targetContour = r.refContour :=
  ⟨⟨5, 95 / 12, ⟨4800, 60, 95⟩, ⟨4800, 60, 95⟩⟩, by
    norm_num [calculate_dimensions, sortByAreaDesc, List.insertionSort,
      List.orderedInsert, byAreaDesc, findReference, aspectRatio, shortSide,
      longSide, min_def, max_def], rfl⟩

/-- C10: the fallback access `contours[1]` is always in bounds — the run only
reaches target selection after the two-contour check, so the modelled
`IndexError` is unreachable on every input. -/
theorem C10_fallback_index_in_bounds (cs : List Contour) (w : ℚ) :
    calculate_dimensions cs w ≠ .error .indexFault := by
  intro h
  by_cases hlen : cs.length < 2
  · rw [calculate_dimensions, if_pos hlen] at h
    exact absurd h (by simp)
  · have hlen2 : 2 ≤ cs.length := by omega
    obtain ⟨c0, c1, rest, hs⟩ := sortByAreaDesc_two_le hlen2
    rw [calculate_dimensions, if_neg hlen] at h
    simp only [hs, List.getElem?_cons_zero, List.getElem?_cons_succ] at h
    split at h
    · exact absurd h (by simp)
    · split at h
      · rename_i heq2
        exact absurd heq2 (by split <;> simp)
      · exact absurd h (by simp)

end DimensionDetector
